import Mathlib

/-
Verification of the batch image-conversion pipeline of bot.py.

The embedding below translates the code of src/bot.py into Lean:
the SUPPORTED_FORMATS table, the per-target color-mode conversion of
button_callback (lines 431-438), the per-item conversion loop of
button_callback (lines 415-479), the post-loop archive/summary logic
(lines 481-529) together with its top-level exception handler, the
ZIP staging filter of handle_document (lines 353-367), and the
Statistics.update_conversion_stats counter updates (lines 72-108).
Byte sizes are Nat; the floating-point size-reduction percentage is
modelled over Rat (its zero-guard branch is exact).
-/

namespace ImageBot

/-- The keys of SUPPORTED_FORMATS in bot.py (target formats offered to the user). -/
inductive Format where
  | JPEG | PNG | WEBP | GIF | TIFF | BMP | AVIF
deriving DecidableEq

/-- The values of SUPPORTED_FORMATS: canonical file extension per target format. -/
def formatExt : Format → String
  | .JPEG => ".jpg"
  | .PNG => ".png"
  | .WEBP => ".webp"
  | .GIF => ".gif"
  | .TIFF => ".tiff"
  | .BMP => ".bmp"
  | .AVIF => ".avif"

/-- PIL pixel modes relevant to the conversion logic: the source's img.mode
values. `one` stands for PIL mode "1". -/
inductive Mode where
  | one | L | LA | P | PA | RGB | RGBA | CMYK | YCbCr | I | F
deriving DecidableEq

/-- PIL modes carrying an alpha channel. -/
def hasAlpha : Mode → Bool
  | .RGBA | .LA | .PA => true
  | _ => false

/-- PIL modes backed by a palette. -/
def hasPalette : Mode → Bool
  | .P | .PA => true
  | _ => false

/-- The image-mode conversion chain of button_callback, bot.py lines 431-438:
JPEG target with mode RGBA or P converts to RGB; WEBP or AVIF target with a
mode other than RGB and RGBA converts to RGBA; otherwise the mode is kept. -/
def normalizeMode (target : Format) (m : Mode) : Mode :=
  if target = Format.JPEG ∧ (m = Mode.RGBA ∨ m = Mode.P) then Mode.RGB
  else if target = Format.WEBP ∧ ¬(m = Mode.RGB ∨ m = Mode.RGBA) then Mode.RGBA
  else if target = Format.AVIF ∧ ¬(m = Mode.RGB ∨ m = Mode.RGBA) then Mode.RGBA
  else m

/-- Modelled from the spec: the color-mode normalization rule as the spec
words it, for comparison with normalizeMode. For the opaque first-format any
source with an alpha channel or a palette flattens to RGB; for the
alpha-capable targets any mode other than RGB and RGBA converts to RGBA;
other targets pass the mode through. -/
def normalizeModeSpec (target : Format) (m : Mode) : Mode :=
  if target = Format.JPEG ∧ (hasAlpha m = true ∨ hasPalette m = true) then Mode.RGB
  else if (target = Format.WEBP ∨ target = Format.AVIF) ∧ ¬(m = Mode.RGB ∨ m = Mode.RGBA) then Mode.RGBA
  else m

/-- Bool test that the second string is a suffix of the first, as Python
str.endswith compares. -/
def strEndsWith (s pat : String) : Bool :=
  pat.data.isSuffixOf s.data

/-- The extension whitelist of handle_document, bot.py line 356. -/
def supportedInputExts : List String :=
  [".jpg", ".jpeg", ".png", ".webp", ".gif", ".tiff", ".bmp", ".avif"]

/-- Python str.lower over the characters of a string. -/
def lowerChars (s : String) : List Char :=
  s.data.map Char.toLower

/-- The extension test of handle_document: filename_in_zip.lower().endswith(ext)
for some ext in the whitelist. -/
def hasSupportedExt (name : String) : Bool :=
  supportedInputExts.any (fun e => e.data.isSuffixOf (lowerChars name))

/-- One entry of the directory a ZIP archive was extracted into: a regular
file with its payload (an abstract byte-buffer id), or a subdirectory with
its own entries. os.listdir in handle_document sees only the top level of
such a listing. -/
inductive FSEntry where
  | file (name : String) (data : Nat)
  | dir (name : String) (children : List FSEntry)

/-- The per-entry body of the staging loop in handle_document, bot.py lines
353-367: a top-level regular file with a supported extension is staged (its
name and bytes kept); a directory or an unsupported name yields nothing. -/
def stageEntry : FSEntry → Option (String × Nat)
  | .file n d => if hasSupportedExt n then some (n, d) else none
  | .dir _ _ => none

/-- The full staging loop over the extracted directory's top-level listing. -/
def stageEntries (entries : List FSEntry) : List (String × Nat) :=
  entries.filterMap stageEntry

/-- handle_document appends every staged entry to the user's pending list. -/
def stageIntoSession (pending : List (String × Nat)) (entries : List FSEntry) :
    List (String × Nat) :=
  pending ++ stageEntries entries

/-- os.path.splitext's root component: the name with its last extension
removed, where a dot that only ends a leading run of dots does not start an
extension (".bashrc" keeps its name). -/
def stripExt (s : String) : String :=
  match s.data.reverse.dropWhile (fun c => c ≠ '.') with
  | [] => s
  | _ :: rest => if rest.isEmpty ∨ rest.all (fun c => c = '.') then s else String.mk rest.reverse

/-- The output name used inside the result ZIP, bot.py lines 441-442:
the original name with its extension replaced by the target's extension. -/
def outName (target : Format) (original : String) : String :=
  stripExt original ++ formatExt target

/-- One staged image as the conversion loop observes it. onDisk models
os.path.exists on the temp file; size its byte size; decodeOk whether
Image.open succeeds; saveResult the outcome of img.save: none when save
raises, some n when it writes a file of n bytes (n = 0: empty output). -/
structure StagedItem where
  name : String
  onDisk : Bool
  size : Nat
  decodeOk : Bool
  saveResult : Option Nat
deriving DecidableEq

/-- The user-visible and archive-level effects of button_callback, in order
of occurrence. -/
inductive Action where
  | itemError (name : String)
  | progress (succ orig conv : Nat)
  | sendArchive (names : List String) (count : Nat)
  | nothingConverted
  | finalSummary (succ total orig conv : Nat) (percent : Rat)
  | criticalError
  | noImages
deriving DecidableEq

/-- The mutable state of the conversion loop in button_callback, lines
410-414: collected results (name in zip, converted size), running byte
totals, the success counter, and the emitted effects. -/
structure LoopState where
  results : List (String × Nat)
  totalOriginal : Nat
  totalConverted : Nat
  succ : Nat
  actions : List Action
deriving DecidableEq

/-- The loop state before the first item. -/
def initState : LoopState := ⟨[], 0, 0, 0, []⟩

/-- The body of the per-item loop of button_callback, bot.py lines 415-479,
for one staged item. batchLen is len(pending_files_data). A missing or empty
file is skipped silently; the original size is accumulated before decoding;
a decode or save exception emits a per-item error and continues; an empty
output file is skipped silently; a success accumulates the converted size,
appends a result, bumps the success counter, and emits a progress report
when the counter is a multiple of 5 or equals batchLen. -/
def processItem (target : Format) (batchLen : Nat) (st : LoopState) (it : StagedItem) :
    LoopState :=
  if it.onDisk = false then st
  else if it.size = 0 then st
  else if it.decodeOk = false then
    { st with totalOriginal := st.totalOriginal + it.size,
              actions := st.actions ++ [Action.itemError it.name] }
  else
    match it.saveResult with
    | none =>
      { st with totalOriginal := st.totalOriginal + it.size,
                actions := st.actions ++ [Action.itemError it.name] }
    | some 0 => { st with totalOriginal := st.totalOriginal + it.size }
    | some (c + 1) =>
      if (st.succ + 1) % 5 = 0 ∨ st.succ + 1 = batchLen then
        { st with totalOriginal := st.totalOriginal + it.size,
                  totalConverted := st.totalConverted + (c + 1),
                  results := st.results ++ [(outName target it.name, c + 1)],
                  succ := st.succ + 1,
                  actions := st.actions ++
                    [Action.progress (st.succ + 1) (st.totalOriginal + it.size)
                      (st.totalConverted + (c + 1))] }
      else
        { st with totalOriginal := st.totalOriginal + it.size,
                  totalConverted := st.totalConverted + (c + 1),
                  results := st.results ++ [(outName target it.name, c + 1)],
                  succ := st.succ + 1 }

/-- The whole per-item loop over the pending batch. -/
def runBatch (items : List StagedItem) (target : Format) : LoopState :=
  items.foldl (processItem target items.length) initState

/-- The per-user session state: pending_images and message_to_edit of
context.user_data. The status handle is an abstract message id. -/
structure Session where
  pending : List StagedItem
  statusHandle : Option Nat
deriving DecidableEq

/-- The size-reduction percentage of bot.py line 510, over Rat:
(original - converted) / original * 100 when the original total is
positive, and 0 otherwise. -/
def sizeReductionPercent (orig conv : Nat) : Rat :=
  if 0 < orig then ((orig : Rat) - (conv : Rat)) / (orig : Rat) * 100 else 0

/-- button_callback after the format choice, bot.py lines 400-536: with no
pending images it only replies; otherwise it runs the loop, then either
packs and sends the results as a ZIP or reports that nothing was converted,
then edits in the final summary, deletes the staged inputs and clears the
session. sendFails models an exception raised while building or sending the
result ZIP (for instance send_document failing): control jumps to the
top-level except handler, which replies with a generic critical-error
message and leaves the session untouched. -/
def buttonCallback (sess : Session) (target : Format) (sendFails : Bool) :
    Session × List Action :=
  if sess.pending.isEmpty then (sess, [Action.noImages])
  else
    let st := runBatch sess.pending target
    let percent := sizeReductionPercent st.totalOriginal st.totalConverted
    if st.results.isEmpty then
      ({ pending := [], statusHandle := none },
       st.actions ++
         [Action.nothingConverted,
          Action.finalSummary st.succ sess.pending.length st.totalOriginal st.totalConverted percent])
    else
      if sendFails then (sess, st.actions ++ [Action.criticalError])
      else
        ({ pending := [], statusHandle := none },
         st.actions ++
           [Action.sendArchive (st.results.map Prod.fst) st.succ,
            Action.finalSummary st.succ sess.pending.length st.totalOriginal st.totalConverted percent])

/-- One day's or month's counters in Statistics. -/
structure PeriodStats where
  images : Nat
  size_original : Nat
  size_converted : Nat
deriving DecidableEq

/-- The counters structure of Statistics.load_stats' fresh default, bot.py
lines 56-63. Python dicts are modelled as association lists with unique
keys in insertion order. -/
structure BotStats where
  total_images : Nat
  total_size_original : Nat
  total_size_converted : Nat
  conversions_by_format : List (String × Nat)
  daily_stats : List (String × PeriodStats)
  monthly_stats : List (String × PeriodStats)
deriving DecidableEq

/-- The all-zero counters returned when no statistics file exists. -/
def initialStats : BotStats := ⟨0, 0, 0, [], [], []⟩

/-- conversions_by_format[tf] = conversions_by_format.get(tf, 0) + 1 on a
unique-key association list: the first matching entry is bumped, an absent
key is inserted at the end with count 1 (the dict gets 0 then += 1). -/
def bumpFormat : List (String × Nat) → String → List (String × Nat)
  | [], k => [(k, 1)]
  | (k', v) :: rest, k =>
    if k' = k then (k', v + 1) :: rest else (k', v) :: bumpFormat rest k

/-- The daily/monthly dict update of update_conversion_stats: the period's
images counter is bumped by 1 and its byte totals by the item's sizes, a
missing period starting from all-zero counters. -/
def bumpPeriod : List (String × PeriodStats) → String → Nat → Nat → List (String × PeriodStats)
  | [], k, o, c => [(k, ⟨1, o, c⟩)]
  | (k', v) :: rest, k, o, c =>
    if k' = k then
      (k', ⟨v.images + 1, v.size_original + o, v.size_converted + c⟩) :: rest
    else (k', v) :: bumpPeriod rest k o c

/-- Statistics.update_conversion_stats, bot.py lines 72-108: bump the grand
totals, the chosen format's counter, and today's and this month's counters. -/
def update_conversion_stats (s : BotStats) (today month : String)
    (original_size converted_size : Nat) (target_format : String) : BotStats :=
  { total_images := s.total_images + 1,
    total_size_original := s.total_size_original + original_size,
    total_size_converted := s.total_size_converted + converted_size,
    conversions_by_format := bumpFormat s.conversions_by_format target_format,
    daily_stats := bumpPeriod s.daily_stats today original_size converted_size,
    monthly_stats := bumpPeriod s.monthly_stats month original_size converted_size }

/-- Sum of the per-format counters. -/
def sumCounts (l : List (String × Nat)) : Nat :=
  (l.map Prod.snd).sum

/-- Sum of the per-day image counters. -/
def sumImages (l : List (String × PeriodStats)) : Nat :=
  (l.map (fun p => p.2.images)).sum

/-- Dict lookup with default 0 for the format counters. -/
def getCount : List (String × Nat) → String → Nat
  | [], _ => 0
  | (k', v) :: rest, k => if k' = k then v else getCount rest k

/-- Dict lookup of a period's image counter, default 0. -/
def getImages : List (String × PeriodStats) → String → Nat
  | [], _ => 0
  | (k', v) :: rest, k => if k' = k then v.images else getImages rest k

/-- The invariant of the spec: the grand image total equals the sum of the
per-format counters and the sum of the per-day image counters. -/
def statsInvariant (s : BotStats) : Prop :=
  s.total_images = sumCounts s.conversions_by_format ∧
  s.total_images = sumImages s.daily_stats

instance (s : BotStats) : Decidable (statsInvariant s) := by
  unfold statsInvariant; infer_instance

/-- Bool test for a progress-report effect. -/
def isProgress : Action → Bool
  | .progress _ _ _ => true
  | _ => false

/-- Bool test for an archive-send effect. -/
def isSendArchive : Action → Bool
  | .sendArchive _ _ => true
  | _ => false

/- Concrete inputs used by witnesses and counterexamples. -/

/-- A 50KB image that converts to 20KB. -/
def imgA : StagedItem := ⟨"photo1.png", true, 51200, true, some 20480⟩

/-- A 30KB image that converts to 15KB. -/
def imgB : StagedItem := ⟨"photo2.png", true, 30720, true, some 15360⟩

/-- An image of the given size whose decode fails. -/
def imgFail (sz : Nat) : StagedItem := ⟨"photo3.png", true, sz, false, none⟩

/-- A staged image whose temp file no longer exists. -/
def skipImg : StagedItem := ⟨"gone.png", false, 100, true, some 5⟩

/-- A small image that converts successfully. -/
def okImg : StagedItem := ⟨"ok.png", true, 100, true, some 40⟩

/-- A small image whose decode fails. -/
def badImg : StagedItem := ⟨"bad.png", true, 100, false, none⟩

/-- A session holding one convertible image and a status message. -/
def sessOne : Session := ⟨[⟨"a.png", true, 100, true, some 50⟩], some 7⟩

/-- A session whose single staged image fails decode. -/
def sessAllFail : Session := ⟨[badImg], none⟩

/-- A six-image batch: five successes followed by a decode failure. -/
def items6 : List StagedItem := [okImg, okImg, okImg, okImg, okImg, badImg]

/-- The extracted-archive listing of the spec scenario: five top-level files,
two of them with unsupported extensions. -/
def entries5 : List FSEntry :=
  [FSEntry.file "a.jpg" 1, FSEntry.file "notes.txt" 2, FSEntry.file "c.PNG" 3,
   FSEntry.file "tool.exe" 4, FSEntry.file "e.webp" 5]

/-- A listing with a supported image hidden inside a subdirectory. -/
def entriesC10 : List FSEntry :=
  [FSEntry.dir "sub" [FSEntry.file "x.png" 9], FSEntry.file "a.png" 1]

/- General lemmas about the conversion loop. -/

/-- Case analysis of one loop iteration: the actions list only grows, by
item errors or by a progress report at success count st.succ + 1 that
satisfies the reporting condition; the success counter and results either
stay or grow together by one, and when they grow while the reporting
condition holds the progress report is present. -/
theorem processItem_spec (t : Format) (n : Nat) (st : LoopState) (it : StagedItem) :
    ∃ l : List Action,
      (processItem t n st it).actions = st.actions ++ l ∧
      (∀ a ∈ l, (∃ nm, a = Action.itemError nm) ∨
        ∃ o c, a = Action.progress (st.succ + 1) o c ∧ ((st.succ + 1) % 5 = 0 ∨ st.succ + 1 = n)) ∧
      ((processItem t n st it).succ = st.succ ∧ (processItem t n st it).results = st.results ∨
        (processItem t n st it).succ = st.succ + 1 ∧
        (processItem t n st it).results.length = st.results.length + 1 ∧
        (((st.succ + 1) % 5 = 0 ∨ st.succ + 1 = n) →
          ∃ o c, Action.progress (st.succ + 1) o c ∈ (processItem t n st it).actions)) := by
  obtain ⟨nm, od, sz, dec, sv⟩ := it
  cases od with
  | false =>
    exact ⟨[], by simp [processItem], by simp, Or.inl ⟨by simp [processItem], by simp [processItem]⟩⟩
  | true =>
    cases sz with
    | zero =>
      exact ⟨[], by simp [processItem], by simp,
        Or.inl ⟨by simp [processItem], by simp [processItem]⟩⟩
    | succ szm =>
      cases dec with
      | false =>
        refine ⟨[Action.itemError nm], by simp [processItem], ?_,
          Or.inl ⟨by simp [processItem], by simp [processItem]⟩⟩
        intro a ha
        simp at ha
        exact Or.inl ⟨nm, ha⟩
      | true =>
        cases sv with
        | none =>
          refine ⟨[Action.itemError nm], by simp [processItem], ?_,
            Or.inl ⟨by simp [processItem], by simp [processItem]⟩⟩
          intro a ha
          simp at ha
          exact Or.inl ⟨nm, ha⟩
        | some c =>
          cases c with
          | zero =>
            exact ⟨[], by simp [processItem], by simp,
              Or.inl ⟨by simp [processItem], by simp [processItem]⟩⟩
          | succ cm =>
            by_cases hcond : (st.succ + 1) % 5 = 0 ∨ st.succ + 1 = n
            · refine ⟨[Action.progress (st.succ + 1) (st.totalOriginal + (szm + 1))
                  (st.totalConverted + (cm + 1))],
                by simp [processItem, hcond], ?_, Or.inr ⟨by simp [processItem, hcond],
                  by simp [processItem, hcond], ?_⟩⟩
              · intro a ha
                simp at ha
                exact Or.inr ⟨st.totalOriginal + (szm + 1), st.totalConverted + (cm + 1), ha, hcond⟩
              · intro _
                exact ⟨st.totalOriginal + (szm + 1), st.totalConverted + (cm + 1),
                  by simp [processItem, hcond]⟩
            · exact ⟨[], by simp [processItem, hcond], by simp,
                Or.inr ⟨by simp [processItem, hcond], by simp [processItem, hcond],
                  fun h => absurd h hcond⟩⟩

/-- Across any run of the loop the actions list of the starting state is
only appended to. -/
theorem foldl_actions_extend (t : Format) (n : Nat) :
    ∀ (items : List StagedItem) (st : LoopState),
      ∃ l, (List.foldl (processItem t n) st items).actions = st.actions ++ l := by
  intro items
  induction items with
  | nil => intro st; exact ⟨[], by simp⟩
  | cons it rest ih =>
    intro st
    obtain ⟨l1, h1, _, _⟩ := processItem_spec t n st it
    obtain ⟨l2, h2⟩ := ih (processItem t n st it)
    exact ⟨l1 ++ l2, by simp only [List.foldl_cons]; rw [h2, h1, List.append_assoc]⟩

/-- Effects already emitted survive the rest of the loop. -/
theorem foldl_actions_mono (t : Format) (n : Nat) (items : List StagedItem) (st : LoopState) :
    ∀ a ∈ st.actions, a ∈ (List.foldl (processItem t n) st items).actions := by
  intro a ha
  obtain ⟨l, hl⟩ := foldl_actions_extend t n items st
  rw [hl]
  exact List.mem_append_left _ ha

/-- The success counter never decreases across the loop. -/
theorem foldl_succ_mono (t : Format) (n : Nat) :
    ∀ (items : List StagedItem) (st : LoopState),
      st.succ ≤ (List.foldl (processItem t n) st items).succ := by
  intro items
  induction items with
  | nil => intro st; simp
  | cons it rest ih =>
    intro st
    obtain ⟨_, _, _, hsucc⟩ := processItem_spec t n st it
    have := ih (processItem t n st it)
    simp only [List.foldl_cons]
    rcases hsucc with ⟨hs, _⟩ | ⟨hs, _, _⟩ <;> omega

/-- Every effect the loop emits is either inherited from the starting state,
a per-item error, or a progress report whose success count satisfies the
reporting condition. -/
theorem foldl_actions_shape (t : Format) (n : Nat) :
    ∀ (items : List StagedItem) (st : LoopState) (a : Action),
      a ∈ (List.foldl (processItem t n) st items).actions →
      a ∈ st.actions ∨ (∃ nm, a = Action.itemError nm) ∨
        (∃ s o c, a = Action.progress s o c ∧ (s % 5 = 0 ∨ s = n)) := by
  intro items
  induction items with
  | nil => intro st a ha; exact Or.inl (by simpa using ha)
  | cons it rest ih =>
    intro st a ha
    simp only [List.foldl_cons] at ha
    rcases ih (processItem t n st it) a ha with hmem | hrest
    · obtain ⟨l, hact, hl, _⟩ := processItem_spec t n st it
      rw [hact] at hmem
      rcases List.mem_append.mp hmem with h | h
      · exact Or.inl h
      · rcases hl a h with herr | ⟨o, c, heq, hcond⟩
        · exact Or.inr (Or.inl herr)
        · exact Or.inr (Or.inr ⟨st.succ + 1, o, c, heq, hcond⟩)
    · exact Or.inr hrest

/-- Whenever the loop's success counter passes a count that satisfies the
reporting condition, a progress report for that count is emitted. -/
theorem foldl_progress_complete (t : Format) (n : Nat) :
    ∀ (items : List StagedItem) (st : LoopState) (k : Nat),
      st.succ < k → k ≤ (List.foldl (processItem t n) st items).succ →
      (k % 5 = 0 ∨ k = n) →
      ∃ o c, Action.progress k o c ∈ (List.foldl (processItem t n) st items).actions := by
  intro items
  induction items with
  | nil =>
    intro st k h1 h2 _
    simp only [List.foldl_nil] at h2
    omega
  | cons it rest ih =>
    intro st k h1 h2 hcond
    simp only [List.foldl_cons] at h2 ⊢
    obtain ⟨_, _, _, hsucc⟩ := processItem_spec t n st it
    rcases hsucc with ⟨hs, _⟩ | ⟨hs, _, hprog⟩
    · exact ih (processItem t n st it) k (by omega) h2 hcond
    · by_cases hk : k = st.succ + 1
      · subst hk
        obtain ⟨o, c, hoc⟩ := hprog hcond
        exact ⟨o, c, foldl_actions_mono t n rest _ _ hoc⟩
      · exact ih (processItem t n st it) k (by omega) h2 hcond

/-- The number of collected results grows by at most one per staged item. -/
theorem foldl_results_le (t : Format) (n : Nat) :
    ∀ (items : List StagedItem) (st : LoopState),
      (List.foldl (processItem t n) st items).results.length ≤
        st.results.length + items.length := by
  intro items
  induction items with
  | nil => intro st; simp
  | cons it rest ih =>
    intro st
    simp only [List.foldl_cons, List.length_cons]
    obtain ⟨_, _, _, hsucc⟩ := processItem_spec t n st it
    have := ih (processItem t n st it)
    rcases hsucc with ⟨_, hr⟩ | ⟨_, hr, _⟩
    · rw [hr] at this; omega
    · omega

/-- Membership in the staged list of handle_document characterized: a
name-payload pair is staged exactly when it is a top-level regular file of
the listing and its name carries a supported extension. -/
theorem mem_stageEntries (entries : List FSEntry) (n : String) (d : Nat) :
    (n, d) ∈ stageEntries entries ↔
      FSEntry.file n d ∈ entries ∧ hasSupportedExt n = true := by
  simp only [stageEntries, List.mem_filterMap]
  constructor
  · rintro ⟨a, ha, hsome⟩
    cases a with
    | file n' d' =>
      by_cases hext : hasSupportedExt n' = true
      · simp only [stageEntry, hext, if_pos] at hsome
        obtain ⟨rfl, rfl⟩ := Prod.mk.injEq .. ▸ Option.some.injEq .. ▸ hsome
        exact ⟨ha, hext⟩
      · simp [stageEntry, hext] at hsome
    | dir nm ch => simp [stageEntry] at hsome
  · rintro ⟨hmem, hext⟩
    exact ⟨FSEntry.file n d, hmem, by simp [stageEntry, hext]⟩

/-- Bumping a format counter raises the sum of all format counters by one. -/
theorem sumCounts_bumpFormat (l : List (String × Nat)) (k : String) :
    sumCounts (bumpFormat l k) = sumCounts l + 1 := by
  induction l with
  | nil => simp [bumpFormat, sumCounts]
  | cons p rest ih =>
    obtain ⟨k', v⟩ := p
    by_cases h : k' = k
    · simp [bumpFormat, h, sumCounts]; omega
    · simp only [bumpFormat, h, if_false, sumCounts, List.map_cons, List.sum_cons] at ih ⊢
      omega

/-- Bumping a period's counters raises the sum of all image counters by one. -/
theorem sumImages_bumpPeriod (l : List (String × PeriodStats)) (k : String) (o c : Nat) :
    sumImages (bumpPeriod l k o c) = sumImages l + 1 := by
  induction l with
  | nil => simp [bumpPeriod, sumImages]
  | cons p rest ih =>
    obtain ⟨k', v⟩ := p
    by_cases h : k' = k
    · simp [bumpPeriod, h, sumImages]; omega
    · simp only [bumpPeriod, h, if_false, sumImages, List.map_cons, List.sum_cons] at ih ⊢
      omega

/-- Bumping a format counter raises that format's looked-up count by one. -/
theorem getCount_bumpFormat (l : List (String × Nat)) (k : String) :
    getCount (bumpFormat l k) k = getCount l k + 1 := by
  induction l with
  | nil => simp [bumpFormat, getCount]
  | cons p rest ih =>
    obtain ⟨k', v⟩ := p
    by_cases h : k' = k
    · simp [bumpFormat, h, getCount]
    · simp [bumpFormat, h, getCount, ih]

/-- Bumping a period raises that period's looked-up image count by one. -/
theorem getImages_bumpPeriod (l : List (String × PeriodStats)) (k : String) (o c : Nat) :
    getImages (bumpPeriod l k o c) k = getImages l k + 1 := by
  induction l with
  | nil => simp [bumpPeriod, getImages]
  | cons p rest ih =>
    obtain ⟨k', v⟩ := p
    by_cases h : k' = k
    · simp [bumpPeriod, h, getImages]
    · simp [bumpPeriod, h, getImages, ih]

/- Claim theorems. -/

/-- Claim C1, counterexample: the LA mode (grayscale plus alpha) carries an
alpha channel, yet for the JPEG target the code leaves it unchanged, while
the spec's rule would flatten it to RGB; so the claim that any alpha- or
palette-bearing source is flattened before a JPEG encode is false on the
code. -/
theorem c1_normalize_cex :
    hasAlpha Mode.LA = true ∧
    normalizeMode Format.JPEG Mode.LA = Mode.LA ∧
    normalizeModeSpec Format.JPEG Mode.LA = Mode.RGB ∧
    Mode.LA ≠ Mode.RGB := by decide

/-- Claim C1 (amended): before encoding, a JPEG target converts exactly the
modes RGBA and P to RGB (other alpha- or palette-bearing modes such as LA
and PA pass through unchanged); a WEBP or AVIF target converts every mode
other than RGB and RGBA to RGBA; every other target passes the mode through
unchanged. -/
theorem c1_normalize_amended : ∀ m : Mode,
    (normalizeMode Format.JPEG m =
      if m = Mode.RGBA ∨ m = Mode.P then Mode.RGB else m) ∧
    (normalizeMode Format.WEBP m =
      if m = Mode.RGB ∨ m = Mode.RGBA then m else Mode.RGBA) ∧
    (normalizeMode Format.AVIF m =
      if m = Mode.RGB ∨ m = Mode.RGBA then m else Mode.RGBA) ∧
    (∀ t : Format, t ≠ Format.JPEG → t ≠ Format.WEBP → t ≠ Format.AVIF →
      normalizeMode t m = m) := by
  intro m
  refine ⟨?_, ?_, ?_, ?_⟩
  · cases m <;> decide
  · cases m <;> decide
  · cases m <;> decide
  · intro t h1 h2 h3
    cases t <;> first | exact absurd rfl h1 | exact absurd rfl h2 | exact absurd rfl h3 |
      (cases m <;> decide)

/-- Claim C1 witness: a PNG target leaves a palette image's mode unchanged. -/
theorem c1_normalize_witness : normalizeMode Format.PNG Mode.P = Mode.P :=
  (c1_normalize_amended Mode.P).2.2.2 Format.PNG (by decide) (by decide) (by decide)

/-- Claim C2: when the loop collects no results, button_callback reports
that nothing was converted and never emits an archive-send effect (the ZIP
is neither built nor sent). -/
theorem c2_nothing_converted :
    ∀ (sess : Session) (t : Format) (b : Bool),
      sess.pending ≠ [] →
      (runBatch sess.pending t).results = [] →
      Action.nothingConverted ∈ (buttonCallback sess t b).2 ∧
      (buttonCallback sess t b).2.countP isSendArchive = 0 := by
  intro sess t b hne hres
  have hempty : sess.pending.isEmpty = false := by
    cases h : sess.pending with
    | nil => exact absurd h hne
    | cons x xs => simp
  have hresEmpty : (runBatch sess.pending t).results.isEmpty = true := by
    rw [hres]; rfl
  constructor
  · simp only [buttonCallback, hempty, Bool.false_eq_true, if_false, hresEmpty, if_true]
    simp
  · simp only [buttonCallback, hempty, Bool.false_eq_true, if_false, hresEmpty, if_true]
    rw [List.countP_eq_zero]
    intro a ha
    rcases List.mem_append.mp ha with hloop | htail
    · rcases foldl_actions_shape t sess.pending.length sess.pending initState a hloop with
        h0 | ⟨nm, rfl⟩ | ⟨s, o, c, rfl, _⟩
      · simp [initState] at h0
      · simp [isSendArchive]
      · simp [isSendArchive]
    · simp only [List.mem_cons, List.not_mem_nil, or_false] at htail
      rcases htail with rfl | rfl <;> simp [isSendArchive]

/-- Claim C2 witness: a session whose single image fails decode yields the
nothing-converted report and no archive. -/
theorem c2_nothing_converted_witness :
    Action.nothingConverted ∈ (buttonCallback sessAllFail Format.WEBP false).2 ∧
    (buttonCallback sessAllFail Format.WEBP false).2.countP isSendArchive = 0 :=
  c2_nothing_converted sessAllFail Format.WEBP false (by decide) (by decide)

/-- Claim C3 (code bug): a critical orchestration error (the result ZIP
fails to send) reaches the top-level except handler, which only replies
with a generic failure message — the session's pending list and status
handle are left untouched rather than cleared; without the error the same
batch does clear them. -/
theorem c3_critical_error_no_clear :
    sessOne.pending ≠ [] ∧
    (buttonCallback sessOne Format.WEBP true).1 = sessOne ∧
    Action.criticalError ∈ (buttonCallback sessOne Format.WEBP true).2 ∧
    (buttonCallback sessOne Format.WEBP false).1.pending = [] ∧
    (buttonCallback sessOne Format.WEBP false).1.statusHandle = none := by decide

/-- Claim C4: unpacking an archive stages exactly the top-level regular
files whose names end, case-insensitively, with a supported image
extension; and the spec's five-file listing with two unsupported names adds
exactly three staged images to any session. -/
theorem c4_staging :
    (∀ (entries : List FSEntry) (n : String) (d : Nat),
      (n, d) ∈ stageEntries entries ↔
        FSEntry.file n d ∈ entries ∧ hasSupportedExt n = true) ∧
    (∀ pending : List (String × Nat),
      (stageIntoSession pending entries5).length = pending.length + 3) := by
  constructor
  · exact mem_stageEntries
  · intro pending
    have h3 : (stageEntries entries5).length = 3 := by decide
    simp [stageIntoSession, h3]

/-- Claim C4 witness: the supported file a.jpg of the five-file listing is
staged. -/
theorem c4_staging_witness : ("a.jpg", 1) ∈ stageEntries entries5 :=
  (c4_staging.1 entries5 "a.jpg" 1).mpr ⟨by simp [entries5], by decide⟩

/-- Claim C5, counterexample: in the spec's scenario (50KB and 30KB images
converting to 20KB and 15KB, one decode failure — here of 10KB) the code
accumulates the failed item's bytes into the original total before the
decode attempt, so the total is 92160 bytes, not the 81920 bytes the claim
derives from the two successes alone. -/
theorem c5_batch_scenario_cex :
    (runBatch [imgA, imgB, imgFail 10240] Format.WEBP).results.length = 2 ∧
    (runBatch [imgA, imgB, imgFail 10240] Format.WEBP).totalConverted = 35840 ∧
    (runBatch [imgA, imgB, imgFail 10240] Format.WEBP).totalOriginal = 92160 ∧
    (92160 : Nat) ≠ 81920 := by decide

/-- The loop state after the spec's three-image scenario, for any positive
size of the decode-failing item. -/
theorem runBatch_c5 (sz : Nat) (h : 0 < sz) :
    runBatch [imgA, imgB, imgFail sz] Format.WEBP =
      ⟨[("photo1.webp", 20480), ("photo2.webp", 15360)], 81920 + sz, 35840, 2,
       [Action.itemError "photo3.png"]⟩ := by
  have h2 : List.foldl (processItem Format.WEBP 3) initState [imgA, imgB] =
      ⟨[("photo1.webp", 20480), ("photo2.webp", 15360)], 81920, 35840, 2, []⟩ := by decide
  have hsz : ¬(sz = 0) := by omega
  rw [runBatch]
  rw [show [imgA, imgB, imgFail sz] = [imgA, imgB] ++ [imgFail sz] from rfl]
  rw [List.foldl_append]
  rw [show ([imgA, imgB] ++ [imgFail sz]).length = 3 by simp]
  rw [h2]
  simp only [List.foldl_cons, List.foldl_nil]
  simp [processItem, imgFail, hsz]

/-- Claim C5 (amended): in the spec's scenario the results list has exactly
two entries, both archive member names carry the .webp extension, the
summary counts 2 of 3 processed, and the converted byte total (35KB) comes
from the two successes alone; but the original byte total also includes the
decode-failed item's bytes (80KB plus its size), and the reported reduction
percentage is computed from that total. -/
theorem c5_batch_scenario_amended :
    ∀ sz : Nat, 0 < sz →
      (runBatch [imgA, imgB, imgFail sz] Format.WEBP).results.length = 2 ∧
      (runBatch [imgA, imgB, imgFail sz] Format.WEBP).results.map Prod.fst =
        ["photo1.webp", "photo2.webp"] ∧
      (((runBatch [imgA, imgB, imgFail sz] Format.WEBP).results.map Prod.fst).all
        (fun nm => strEndsWith nm ".webp")) = true ∧
      (runBatch [imgA, imgB, imgFail sz] Format.WEBP).succ = 2 ∧
      [imgA, imgB, imgFail sz].length = 3 ∧
      (runBatch [imgA, imgB, imgFail sz] Format.WEBP).totalConverted = 35840 ∧
      (runBatch [imgA, imgB, imgFail sz] Format.WEBP).totalOriginal = 81920 + sz ∧
      Action.sendArchive ["photo1.webp", "photo2.webp"] 2 ∈
        (buttonCallback ⟨[imgA, imgB, imgFail sz], none⟩ Format.WEBP false).2 ∧
      Action.finalSummary 2 3 (81920 + sz) 35840
          (sizeReductionPercent (81920 + sz) 35840) ∈
        (buttonCallback ⟨[imgA, imgB, imgFail sz], none⟩ Format.WEBP false).2 := by
  intro sz h
  have hrun := runBatch_c5 sz h
  have hbc : (buttonCallback ⟨[imgA, imgB, imgFail sz], none⟩ Format.WEBP false).2 =
      [Action.itemError "photo3.png",
       Action.sendArchive ["photo1.webp", "photo2.webp"] 2,
       Action.finalSummary 2 3 (81920 + sz) 35840
         (sizeReductionPercent (81920 + sz) 35840)] := by
    simp only [buttonCallback]
    rw [hrun]
    simp
  refine ⟨?_, ?_, ?_, ?_, ?_, ?_, ?_, ?_, ?_⟩
  · rw [hrun]; rfl
  · rw [hrun]; rfl
  · rw [hrun]; rfl
  · rw [hrun]
  · rfl
  · rw [hrun]
  · rw [hrun]
  · rw [hbc]; simp
  · rw [hbc]; simp

/-- Claim C5 witness: with a 10KB decode failure the original total is
81920 + 10240 bytes. -/
theorem c5_batch_scenario_witness :
    (runBatch [imgA, imgB, imgFail 10240] Format.WEBP).totalOriginal = 81920 + 10240 :=
  (c5_batch_scenario_amended 10240 (by decide)).2.2.2.2.2.2.1

/-- Claim C6, counterexample: a two-image batch whose final item fails
decode emits no progress report at all — in particular none when its final
item is processed — refuting the claim that a report is emitted on the
final item regardless of its success. -/
theorem c6_progress_cex :
    (runBatch [okImg, badImg] Format.WEBP).actions.countP isProgress = 0 ∧
    (runBatch [okImg, badImg] Format.WEBP).succ = 1 ∧
    Action.itemError "bad.png" ∈ (runBatch [okImg, badImg] Format.WEBP).actions ∧
    [okImg, badImg].length = 2 := by decide

/-- Claim C6 (amended): a progress report is emitted exactly after
successful conversions whose running success count is a multiple of 5 or
equals the batch size; the end-of-batch report therefore appears only when
every item succeeded, and a batch whose final item fails emits no report
for that item. -/
theorem c6_progress_amended :
    ∀ (items : List StagedItem) (t : Format),
      (∀ s o c, Action.progress s o c ∈ (runBatch items t).actions →
        s % 5 = 0 ∨ s = items.length) ∧
      (∀ k, 0 < k → k ≤ (runBatch items t).succ → (k % 5 = 0 ∨ k = items.length) →
        ∃ o c, Action.progress k o c ∈ (runBatch items t).actions) := by
  intro items t
  constructor
  · intro s o c h
    rcases foldl_actions_shape t items.length items initState _ h with
      h0 | ⟨nm, heq⟩ | ⟨s', o', c', heq, hcond⟩
    · simp [initState] at h0
    · exact absurd heq (by simp)
    · obtain ⟨rfl, -, -⟩ := Action.progress.injEq .. ▸ heq
      exact hcond
  · intro k hk hle hcond
    exact foldl_progress_complete t items.length items initState k (by simpa [initState] using hk)
      hle hcond

/-- Claim C6 witness: in a six-image batch with five successes then a
failure, a progress report for the fifth success is emitted. -/
theorem c6_progress_witness :
    ∃ o c, Action.progress 5 o c ∈ (runBatch items6 Format.WEBP).actions :=
  (c6_progress_amended items6 Format.WEBP).2 5 (by decide) (by decide) (by decide)

/-- Claim C7: the statistics invariant — the grand image total equals the
sum of the per-format counters and the sum of the per-day image counters —
holds for the fresh all-zero counters and is preserved by every call to
update_conversion_stats, which bumps the total, the chosen format's counter
and the current day's image counter each by exactly one. -/
theorem c7_stats_invariant :
    statsInvariant initialStats ∧
    (∀ (s : BotStats) (today month : String) (o c : Nat) (fmt : String),
      statsInvariant s →
      statsInvariant (update_conversion_stats s today month o c fmt)) ∧
    (∀ (s : BotStats) (today month : String) (o c : Nat) (fmt : String),
      (update_conversion_stats s today month o c fmt).total_images = s.total_images + 1 ∧
      getCount (update_conversion_stats s today month o c fmt).conversions_by_format fmt =
        getCount s.conversions_by_format fmt + 1 ∧
      getImages (update_conversion_stats s today month o c fmt).daily_stats today =
        getImages s.daily_stats today + 1) := by
  refine ⟨by decide, ?_, ?_⟩
  · intro s today month o c fmt ⟨h1, h2⟩
    constructor
    · simp only [update_conversion_stats, sumCounts_bumpFormat]
      omega
    · simp only [update_conversion_stats, sumImages_bumpPeriod]
      omega
  · intro s today month o c fmt
    exact ⟨rfl, getCount_bumpFormat .., getImages_bumpPeriod ..⟩

/-- Claim C7 witness: one update of the fresh counters keeps the invariant. -/
theorem c7_stats_invariant_witness :
    statsInvariant (update_conversion_stats initialStats "2026-10-12" "2026-10" 100 40 "WEBP") :=
  c7_stats_invariant.2.1 initialStats "2026-10-12" "2026-10" 100 40 "WEBP" (by decide)

/-- Claim C8: whenever a batch accumulates a zero original-byte total, the
reported size-reduction percentage is exactly 0 — the guarded expression of
line 510 never divides by zero. -/
theorem c8_percent_zero :
    ∀ (items : List StagedItem) (t : Format),
      (runBatch items t).totalOriginal = 0 →
      sizeReductionPercent (runBatch items t).totalOriginal
        (runBatch items t).totalConverted = 0 := by
  intro items t h
  rw [h]
  simp [sizeReductionPercent]

/-- Claim C8 witness: a batch whose only staged file disappeared has a zero
original total and a zero reported reduction. -/
theorem c8_percent_zero_witness :
    sizeReductionPercent (runBatch [skipImg] Format.JPEG).totalOriginal
      (runBatch [skipImg] Format.JPEG).totalConverted = 0 :=
  c8_percent_zero [skipImg] Format.JPEG (by decide)

/-- Claim C9: a batch never collects more conversion results than it has
staged images — each staged image yields at most one result per run. -/
theorem c9_results_le :
    ∀ (items : List StagedItem) (t : Format),
      (runBatch items t).results.length ≤ items.length := by
  intro items t
  have := foldl_results_le t items.length items initState
  simpa [runBatch, initState] using this

/-- Claim C10: archive staging is non-recursive — a directory entry
contributes nothing to staging whatever its contents, and every staged
name-payload pair comes from a regular file at the top level of the
listing; an image present only inside a subdirectory is never staged. -/
theorem c10_top_level_only :
    (∀ (nm : String) (ch : List FSEntry) (rest : List FSEntry),
      stageEntries (FSEntry.dir nm ch :: rest) = stageEntries rest) ∧
    (∀ (entries : List FSEntry) (n : String) (d : Nat),
      (n, d) ∈ stageEntries entries → FSEntry.file n d ∈ entries) := by
  constructor
  · intro nm ch rest
    simp [stageEntries, stageEntry]
  · intro entries n d h
    exact ((mem_stageEntries entries n d).mp h).1

/-- Claim C10 witness: in a listing with x.png only inside a subdirectory,
the staged pair a.png comes from the top-level file entry. -/
theorem c10_top_level_only_witness : FSEntry.file "a.png" 1 ∈ entriesC10 :=
  c10_top_level_only.2 entriesC10 "a.png" 1 (by decide)

end ImageBot
